import Mathlib

/-!
Verification of the core logic of the arc-content-report repository.

Shallow embedding conventions:
* date/time instants are modelled as natural numbers counting whole seconds
  (the code formats every recursively produced boundary with
  strftime("%Y-%m-%dT%H:%M:%S"), so the values flowing through the splitter
  are second-granular);
* the remote search endpoint is an oracle function passed explicitly;
* Python dictionaries are association lists with first-match lookup
  (`pyGet`), and `dict(pairs)` keeps the last value for a duplicated key
  (`dict_get` looks the reversed list up).
-/

namespace ContentReport

/-- Outcome of the HTTP GET issued by `DateRangeBuilder.get_total_hits`
(src/daterange_builder.py). `success count?` models a 2xx response whose JSON
body may or may not carry a "count" field (`data.get("count", 0)`);
`failure` models a raised `requests.exceptions.RequestException`. -/
inductive FetchResult where
  | success (count? : Option Nat)
  | failure (msg : String)

/-- API limit `self.max_records = 10000` (src/daterange_builder.py line 26). -/
def max_records : Nat := 10000

/-- Recursion bound `self.max_recursion_depth = 10` (line 27). -/
def max_recursion_depth : Nat := 10

/-- `DateRangeBuilder.get_total_hits` (lines 36-55): returns the "count" field
of the JSON response, 0 when the field is absent, and 0 when the request
raises a `RequestException` (the except branch logs and returns 0). -/
def get_total_hits (fetch : Nat → Nat → FetchResult) (start_date end_date : Nat) : Nat :=
  match fetch start_date end_date with
  | FetchResult.success count? => count?.getD 0
  | FetchResult.failure _ => 0

/-- `DateRangeBuilder.split_range` (lines 57-101). The midpoint
`start_dt + (end_dt - start_dt) / 2` is formatted with
strftime("%Y-%m-%dT%H:%M:%S"), which truncates any fractional second, so on
second-granular instants the boundary passed to both recursive calls is
`start + (end - start) / 2` with floor division. -/
def split_range (fetch : Nat → Nat → FetchResult) (start_date end_date : Nat)
    (depth : Nat) : List (Nat × Nat) :=
  if max_recursion_depth ≤ depth then
    [(start_date, end_date)]
  else if get_total_hits fetch start_date end_date ≤ max_records then
    [(start_date, end_date)]
  else
    split_range fetch start_date (start_date + (end_date - start_date) / 2) (depth + 1) ++
      split_range fetch (start_date + (end_date - start_date) / 2) end_date (depth + 1)
termination_by max_recursion_depth - depth
decreasing_by all_goals { simp only [not_le] at *; omega }

/-- `DateRangeBuilder.validate_date_range` (lines 124-131): true exactly when
start is strictly before end (in the numeric instant model every input
parses, so the ValueError branch does not arise). -/
def validate_date_range (start_date end_date : Nat) : Bool :=
  decide (start_date < end_date)

/-- Instrumented `split_range` that additionally returns, in call order, the
list of (start, end) pairs passed to `get_total_hits`, modelling exactly
which count queries the splitter issues. -/
def split_range_probed (fetch : Nat → Nat → FetchResult) (start_date end_date : Nat)
    (depth : Nat) : List (Nat × Nat) × List (Nat × Nat) :=
  if max_recursion_depth ≤ depth then
    ([(start_date, end_date)], [])
  else if get_total_hits fetch start_date end_date ≤ max_records then
    ([(start_date, end_date)], [(start_date, end_date)])
  else
    let first_half :=
      split_range_probed fetch start_date (start_date + (end_date - start_date) / 2) (depth + 1)
    let second_half :=
      split_range_probed fetch (start_date + (end_date - start_date) / 2) end_date (depth + 1)
    (first_half.1 ++ second_half.1,
      (start_date, end_date) :: (first_half.2 ++ second_half.2))
termination_by max_recursion_depth - depth
decreasing_by all_goals { simp only [not_le] at *; omega }

/-- `DateRangeBuilder.build_optimal_ranges` (lines 103-122): splitting starts
at depth 0. -/
def build_optimal_ranges (fetch : Nat → Nat → FetchResult) (start_date end_date : Nat) :
    List (Nat × Nat) :=
  split_range fetch start_date end_date 0

/-- Instrumented `build_optimal_ranges`. -/
def build_optimal_ranges_probed (fetch : Nat → Nat → FetchResult)
    (start_date end_date : Nat) : List (Nat × Nat) × List (Nat × Nat) :=
  split_range_probed fetch start_date end_date 0

/-- Observable outcome of `create_date_ranges_from_tuples`: the returned
ranges, the probe calls issued, and the tuples rejected with the
"Invalid date range" warning (the surfaced rejection). -/
structure CreateRangesResult where
  ranges : List (Nat × Nat)
  probes : List (Nat × Nat)
  warned : List (Nat × Nat)
deriving DecidableEq

/-- Body of the loop of `create_date_ranges_from_tuples` (lines 154-159): a
valid tuple is split and its ranges (and probe calls) accumulated; an invalid
tuple is recorded with the "Invalid date range" warning and contributes
nothing else. -/
def create_ranges_step (fetch : Nat → Nat → FetchResult) (acc : CreateRangesResult)
    (t : Nat × Nat) : CreateRangesResult :=
  if validate_date_range t.1 t.2 then
    let br := build_optimal_ranges_probed fetch t.1 t.2
    { acc with ranges := acc.ranges ++ br.1, probes := acc.probes ++ br.2 }
  else
    { acc with warned := acc.warned ++ [t] }

/-- `create_date_ranges_from_tuples` (lines 133-161). -/
def create_date_ranges_from_tuples (fetch : Nat → Nat → FetchResult)
    (date_tuples : List (Nat × Nat)) : CreateRangesResult :=
  date_tuples.foldl (create_ranges_step fetch) ⟨[], [], []⟩

/-- Ranges contributed by a single tuple. -/
def tuple_ranges (fetch : Nat → Nat → FetchResult) (t : Nat × Nat) : List (Nat × Nat) :=
  if validate_date_range t.1 t.2 then (build_optimal_ranges_probed fetch t.1 t.2).1 else []

/-- Probe calls contributed by a single tuple. -/
def tuple_probes (fetch : Nat → Nat → FetchResult) (t : Nat × Nat) : List (Nat × Nat) :=
  if validate_date_range t.1 t.2 then (build_optimal_ranges_probed fetch t.1 t.2).2 else []

/-- The first range emitted by the splitter starts at the input start (and in
particular the output is nonempty). -/
theorem split_range_head?_fst (fetch : Nat → Nat → FetchResult) (s e d : Nat) :
    (split_range fetch s e d).head?.map Prod.fst = some s := by
  rw [split_range]
  split
  · rfl
  split
  · rfl
  next h1 h2 =>
    have ihl := split_range_head?_fst fetch s (s + (e - s) / 2) (d + 1)
    have hne : split_range fetch s (s + (e - s) / 2) (d + 1) ≠ [] := by
      intro hnil
      rw [hnil] at ihl
      simp at ihl
    rw [List.head?_append_of_ne_nil _ hne]
    exact ihl
termination_by max_recursion_depth - d
decreasing_by simp only [not_le] at *; omega

/-- The last range emitted by the splitter ends at the input end. -/
theorem split_range_getLast?_snd (fetch : Nat → Nat → FetchResult) (s e d : Nat) :
    (split_range fetch s e d).getLast?.map Prod.snd = some e := by
  rw [split_range]
  split
  · rfl
  split
  · rfl
  next h1 h2 =>
    have ihr := split_range_getLast?_snd fetch (s + (e - s) / 2) e (d + 1)
    have hne : split_range fetch (s + (e - s) / 2) e (d + 1) ≠ [] := by
      intro hnil
      rw [hnil] at ihr
      simp at ihr
    rw [List.getLast?_append_of_ne_nil _ hne]
    exact ihr
termination_by max_recursion_depth - d
decreasing_by simp only [not_le] at *; omega

/-- The splitter never returns an empty list. -/
theorem split_range_ne_nil (fetch : Nat → Nat → FetchResult) (s e d : Nat) :
    split_range fetch s e d ≠ [] := by
  intro hnil
  have h := split_range_head?_fst fetch s e d
  rw [hnil] at h
  simp at h

/-- Adjacent ranges in the splitter output share their boundary: each range
ends where the next one starts. -/
theorem split_range_chain (fetch : Nat → Nat → FetchResult) (s e d : Nat) :
    List.Chain' (fun a b : Nat × Nat => a.2 = b.1) (split_range fetch s e d) := by
  rw [split_range]
  split
  · simp
  split
  · simp
  next h1 h2 =>
    have ihl := split_range_chain fetch s (s + (e - s) / 2) (d + 1)
    have ihr := split_range_chain fetch (s + (e - s) / 2) e (d + 1)
    refine List.Chain'.append ihl ihr ?_
    intro x hx y hy
    have hlast := split_range_getLast?_snd fetch s (s + (e - s) / 2) (d + 1)
    have hhead := split_range_head?_fst fetch (s + (e - s) / 2) e (d + 1)
    rw [hx] at hlast
    rw [hy] at hhead
    simp only [Option.map_some', Option.some.injEq] at hlast hhead
    rw [hlast, hhead]
termination_by max_recursion_depth - d
decreasing_by all_goals { simp only [not_le] at *; omega }

/-- C1: for every valid date range (start < end), any probe function and any
recursion outcome, the splitter output covers the input exactly: it is
nonempty, its first range starts at the input start, its last range ends at
the input end, and every adjacent pair of ranges satisfies
range[i].end = range[i+1].start (contiguous, left-to-right, no gaps and no
overlap beyond the shared boundary instant). -/
theorem C1_split_range_exact_cover (fetch : Nat → Nat → FetchResult) (s e : Nat)
    (hvalid : s < e) :
    split_range fetch s e 0 ≠ [] ∧
    (split_range fetch s e 0).head?.map Prod.fst = some s ∧
    (split_range fetch s e 0).getLast?.map Prod.snd = some e ∧
    List.Chain' (fun a b : Nat × Nat => a.2 = b.1) (split_range fetch s e 0) :=
  ⟨split_range_ne_nil fetch s e 0, split_range_head?_fst fetch s e 0,
    split_range_getLast?_snd fetch s e 0, split_range_chain fetch s e 0⟩

/-- C1 witness: the coverage theorem instantiated on the concrete range
(0, 5) with a probe that always reports 20000 hits. -/
theorem C1_split_range_exact_cover_witness :
    (0 : Nat) < 5 ∧
    (split_range (fun _ _ => FetchResult.success (some 20000)) 0 5 0 ≠ [] ∧
    (split_range (fun _ _ => FetchResult.success (some 20000)) 0 5 0).head?.map Prod.fst
        = some 0 ∧
    (split_range (fun _ _ => FetchResult.success (some 20000)) 0 5 0).getLast?.map Prod.snd
        = some 5 ∧
    List.Chain' (fun a b : Nat × Nat => a.2 = b.1)
      (split_range (fun _ _ => FetchResult.success (some 20000)) 0 5 0)) :=
  ⟨by decide, C1_split_range_exact_cover (fun _ _ => FetchResult.success (some 20000)) 0 5
    (by decide)⟩

/-- C3: when the probe request fails with a request error, `get_total_hits`
returns 0 instead of propagating the error, and consequently `split_range`
accepts the range as-is, returning the single range and splitting no
further. -/
theorem C3_probe_failure_fail_open (fetch : Nat → Nat → FetchResult) (s e d : Nat)
    (msg : String) (hfail : fetch s e = FetchResult.failure msg) :
    get_total_hits fetch s e = 0 ∧ split_range fetch s e d = [(s, e)] := by
  have hzero : get_total_hits fetch s e = 0 := by
    simp [get_total_hits, hfail]
  refine ⟨hzero, ?_⟩
  rw [split_range]
  split
  · rfl
  rw [if_pos]
  rw [hzero]
  exact Nat.zero_le _

/-- C3 witness: a probe that always fails makes the splitter return the
input range unchanged. -/
theorem C3_probe_failure_fail_open_witness :
    (fun _ _ : Nat => FetchResult.failure "boom") 0 100 = FetchResult.failure "boom" ∧
    (get_total_hits (fun _ _ => FetchResult.failure "boom") 0 100 = 0 ∧
      split_range (fun _ _ => FetchResult.failure "boom") 0 100 0 = [(0, 100)]) :=
  ⟨rfl, C3_probe_failure_fail_open (fun _ _ => FetchResult.failure "boom") 0 100 0 "boom" rfl⟩

/-- Fold characterisation of `create_date_ranges_from_tuples`: ranges and
probes are the concatenated contributions of the tuples, and the warned list
collects exactly the invalid tuples, in order. -/
theorem create_ranges_foldl_char (fetch : Nat → Nat → FetchResult)
    (ts : List (Nat × Nat)) (acc : CreateRangesResult) :
    ts.foldl (create_ranges_step fetch) acc =
      ⟨acc.ranges ++ ts.flatMap (tuple_ranges fetch),
        acc.probes ++ ts.flatMap (tuple_probes fetch),
        acc.warned ++ ts.filter (fun t => !validate_date_range t.1 t.2)⟩ := by
  induction ts generalizing acc with
  | nil => simp
  | cons t ts ih =>
    rw [List.foldl_cons, ih]
    by_cases hv : validate_date_range t.1 t.2 <;>
      simp [create_ranges_step, tuple_ranges, tuple_probes, hv, List.filter_cons]

/-- `create_date_ranges_from_tuples`, fully characterised. -/
theorem create_date_ranges_char (fetch : Nat → Nat → FetchResult)
    (ts : List (Nat × Nat)) :
    create_date_ranges_from_tuples fetch ts =
      ⟨ts.flatMap (tuple_ranges fetch), ts.flatMap (tuple_probes fetch),
        ts.filter (fun t => !validate_date_range t.1 t.2)⟩ := by
  rw [create_date_ranges_from_tuples, create_ranges_foldl_char]
  simp

/-- Tuples contribute nothing to a flatMap when the invalid ones map to
nothing. -/
theorem flatMap_filter_of_nil {α β : Type} (p : α → Bool) (g : α → List β)
    (h : ∀ x, p x = false → g x = []) :
    ∀ l : List α, (l.filter p).flatMap g = l.flatMap g := by
  intro l
  induction l with
  | nil => rfl
  | cons x l ih =>
    rw [List.filter_cons]
    by_cases hx : p x
    · simp only [hx, if_pos, List.flatMap_cons, ih]
    · have hx0 : p x = false := by simpa using hx
      simp [hx0, List.flatMap_cons, ih, h x hx0]

/-- C2: a tuple whose start is not strictly before its end is rejected by the
entry point before any probe call: it is surfaced in the warned list, it adds
no probe call (the probe trace equals that of the valid tuples alone), and on
its own it produces no probe call and no range. -/
theorem C2_invalid_range_rejected (fetch : Nat → Nat → FetchResult)
    (ts : List (Nat × Nat)) (s e : Nat) (hmem : (s, e) ∈ ts) (hinv : e ≤ s) :
    (s, e) ∈ (create_date_ranges_from_tuples fetch ts).warned ∧
    (create_date_ranges_from_tuples fetch ts).probes
      = (create_date_ranges_from_tuples fetch
          (ts.filter fun t => validate_date_range t.1 t.2)).probes ∧
    (create_date_ranges_from_tuples fetch [(s, e)]).probes = [] ∧
    (create_date_ranges_from_tuples fetch [(s, e)]).ranges = [] := by
  have hval : validate_date_range s e = false := by
    simp [validate_date_range]
    omega
  refine ⟨?_, ?_, ?_, ?_⟩
  · rw [create_date_ranges_char]
    exact List.mem_filter.mpr ⟨hmem, by simp [hval]⟩
  · rw [create_date_ranges_char, create_date_ranges_char]
    simp only
    rw [flatMap_filter_of_nil (fun t => validate_date_range t.1 t.2)
      (tuple_probes fetch) (fun x hx => by simp [tuple_probes, hx])]
  · rw [create_date_ranges_char]
    simp [tuple_probes, hval]
  · rw [create_date_ranges_char]
    simp [tuple_ranges, hval]

/-- C2 witness: the reversed range (2020-01-31, 2020-01-01), as epoch seconds
(1580428800, 1577836800), is warned about and triggers no probe call. -/
theorem C2_invalid_range_rejected_witness :
    ((1580428800, 1577836800) ∈ ([(1580428800, 1577836800)] : List (Nat × Nat)) ∧
      (1577836800 : Nat) ≤ 1580428800) ∧
    ((1580428800, 1577836800)
        ∈ (create_date_ranges_from_tuples (fun _ _ => FetchResult.success (some 0))
            [(1580428800, 1577836800)]).warned ∧
      (create_date_ranges_from_tuples (fun _ _ => FetchResult.success (some 0))
          [(1580428800, 1577836800)]).probes
        = (create_date_ranges_from_tuples (fun _ _ => FetchResult.success (some 0))
            (([(1580428800, 1577836800)] : List (Nat × Nat)).filter
              fun t => validate_date_range t.1 t.2)).probes ∧
      (create_date_ranges_from_tuples (fun _ _ => FetchResult.success (some 0))
          [(1580428800, 1577836800)]).probes = [] ∧
      (create_date_ranges_from_tuples (fun _ _ => FetchResult.success (some 0))
          [(1580428800, 1577836800)]).ranges = []) :=
  ⟨⟨by simp, by omega⟩,
    C2_invalid_range_rejected (fun _ _ => FetchResult.success (some 0))
      [(1580428800, 1577836800)] 1580428800 1577836800 (by simp) (by omega)⟩

/-- C7 counterexample: the claim says the split boundary is the exact
arithmetic mean of the start and end instants. With a probe reporting 20000
hits at depth 9, the range (0 s, 3 s) is split into [(0, 1), (1, 3)]: the
shared boundary actually used is 1 (the strftime-truncated midpoint), yet an
exact arithmetic mean m of 0 and 3 would satisfy 2 * m = 0 + 3, which 1 does
not. -/
theorem C7_exact_mean_counterexample :
    split_range (fun _ _ => FetchResult.success (some 20000)) 0 3 9 = [(0, 1), (1, 3)] ∧
    2 * 1 ≠ 0 + 3 := by
  constructor
  · simp [split_range, get_total_hits, max_recursion_depth, max_records]
  · decide

/-- C7 amended: for every range whose probed count exceeds the ceiling (below
the depth limit), `split_range` splits at the temporal midpoint computed as
the arithmetic mean of the start and end instants truncated to whole seconds
(the floor of the exact mean, which coincides with it when start + end is
even), and that single truncated midpoint becomes both the end of the left
half and the start of the right half. -/
theorem C7_truncated_midpoint_shared (fetch : Nat → Nat → FetchResult)
    (s e d : Nat) (hd : d < max_recursion_depth)
    (hbig : max_records < get_total_hits fetch s e) (hse : s ≤ e) :
    s + (e - s) / 2 = (s + e) / 2 ∧
    split_range fetch s e d =
      split_range fetch s ((s + e) / 2) (d + 1) ++
        split_range fetch ((s + e) / 2) e (d + 1) := by
  have hmid : s + (e - s) / 2 = (s + e) / 2 := by omega
  refine ⟨hmid, ?_⟩
  rw [split_range, if_neg (by omega), if_neg (by omega), hmid]

/-- C7 witness: the amended midpoint theorem instantiated on the range
(0 s, 4 s) with a probe reporting 20000 hits. -/
theorem C7_truncated_midpoint_shared_witness :
    ((0 : Nat) < max_recursion_depth ∧
      max_records < get_total_hits (fun _ _ => FetchResult.success (some 20000)) 0 4 ∧
      (0 : Nat) ≤ 4) ∧
    ((0 : Nat) + (4 - 0) / 2 = (0 + 4) / 2 ∧
      split_range (fun _ _ => FetchResult.success (some 20000)) 0 4 0 =
        split_range (fun _ _ => FetchResult.success (some 20000)) 0 ((0 + 4) / 2) 1 ++
          split_range (fun _ _ => FetchResult.success (some 20000)) ((0 + 4) / 2) 4 1) :=
  ⟨⟨by simp [max_recursion_depth], by simp [get_total_hits, max_records], by omega⟩,
    C7_truncated_midpoint_shared (fun _ _ => FetchResult.success (some 20000)) 0 4 0
      (by simp [max_recursion_depth]) (by simp [get_total_hits, max_records]) (by omega)⟩

/-- When every probe reports more hits than the ceiling, the splitter emits
exactly 2 ^ (maxDepth - depth) leaf ranges. -/
theorem split_range_length_always_big (fetch : Nat → Nat → FetchResult)
    (hbig : ∀ a b, max_records < get_total_hits fetch a b) (s e d : Nat)
    (hd : d ≤ max_recursion_depth) :
    (split_range fetch s e d).length = 2 ^ (max_recursion_depth - d) := by
  rw [split_range]
  split
  · next h =>
    have h0 : max_recursion_depth - d = 0 := by omega
    simp [h0]
  split
  · next h h2 => exact absurd h2 (by simpa using hbig s e)
  next h h2 =>
    have hd1 : d + 1 ≤ max_recursion_depth := by omega
    have ihl := split_range_length_always_big fetch hbig s (s + (e - s) / 2) (d + 1) hd1
    have ihr := split_range_length_always_big fetch hbig (s + (e - s) / 2) e (d + 1) hd1
    rw [List.length_append, ihl, ihr]
    have hsucc : max_recursion_depth - d = (max_recursion_depth - (d + 1)) + 1 := by omega
    rw [hsucc, pow_succ]
    omega
termination_by max_recursion_depth - d
decreasing_by all_goals { simp only [not_le] at *; omega }

/-- C8: when every probe call reports strictly more hits than the ceiling,
`split_range` started at depth 0 returns exactly 2 ^ 10 = 1024 leaf ranges,
and splitting stops unconditionally once the depth counter reaches the
maximum recursion depth (the range is returned as-is). -/
theorem C8_pathological_pow_depth (fetch : Nat → Nat → FetchResult) (s e d : Nat)
    (hbig : ∀ a b, max_records < get_total_hits fetch a b)
    (hd : max_recursion_depth ≤ d) :
    (split_range fetch s e 0).length = 1024 ∧ split_range fetch s e d = [(s, e)] := by
  constructor
  · have h := split_range_length_always_big fetch hbig s e 0 (Nat.zero_le _)
    rw [h]
    norm_num [max_recursion_depth]
  · rw [split_range, if_pos hd]

/-- C8 witness: a probe that always reports 10001 hits yields 1024 leaves
from depth 0 and an unchanged range at depth 10. -/
theorem C8_pathological_pow_depth_witness :
    ((∀ a b : Nat, max_records <
        get_total_hits (fun _ _ => FetchResult.success (some 10001)) a b) ∧
      max_recursion_depth ≤ 10) ∧
    ((split_range (fun _ _ => FetchResult.success (some 10001)) 0 86400 0).length = 1024 ∧
      split_range (fun _ _ => FetchResult.success (some 10001)) 0 86400 10 = [(0, 86400)]) :=
  ⟨⟨fun a b => by simp [get_total_hits, max_records], by simp [max_recursion_depth]⟩,
    C8_pathological_pow_depth (fun _ _ => FetchResult.success (some 10001)) 0 86400 10
      (fun a b => by simp [get_total_hits, max_records]) (by simp [max_recursion_depth])⟩

/-- `utils.chunk_list` (src/utils.py lines 229-231):
lst[i:i+chunk_size] for i in range(0, len(lst), chunk_size). Python raises
ValueError when chunk_size is 0; that case is modelled as the empty list and
excluded by a 0 < chunk_size hypothesis in the theorems. -/
def chunk_list {α : Type} (lst : List α) (chunk_size : Nat) : List (List α) :=
  if h0 : chunk_size = 0 then []
  else if he : lst.isEmpty then []
  else lst.take chunk_size :: chunk_list (lst.drop chunk_size) chunk_size
termination_by lst.length
decreasing_by
  simp only [List.isEmpty_iff] at he
  have hpos : 0 < lst.length := List.length_pos.mpr he
  simp only [List.length_drop]
  omega

/-- Concatenating the chunks gives back the original list. -/
theorem chunk_list_flatten {α : Type} (cs : Nat) (hcs : 0 < cs) (l : List α) :
    (chunk_list l cs).flatten = l := by
  rw [chunk_list]
  split
  · omega
  split
  · next he => simp_all [List.isEmpty_iff]
  · rw [List.flatten_cons, chunk_list_flatten cs hcs (l.drop cs), List.take_append_drop]
termination_by l.length
decreasing_by
  next he =>
    simp only [List.isEmpty_iff] at he
    have hpos : 0 < l.length := List.length_pos.mpr he
    simp only [List.length_drop]
    omega

/-- Mapping a filterMap over the chunks and flattening equals filterMapping
the whole list. -/
theorem chunk_list_flatten_filterMap {α β : Type} (cs : Nat) (hcs : 0 < cs)
    (g : α → Option β) (l : List α) :
    ((chunk_list l cs).map (List.filterMap g)).flatten = l.filterMap g := by
  have h : ∀ ll : List (List α), (ll.map (List.filterMap g)).flatten
      = ll.flatten.filterMap g := by
    intro ll
    induction ll with
    | nil => rfl
    | cons x ll ih =>
      rw [List.map_cons, List.flatten_cons, List.flatten_cons,
        List.filterMap_append, ih]
  rw [h, chunk_list_flatten cs hcs]

/-- Mapping a map over the chunks and flattening equals mapping the whole
list. -/
theorem chunk_list_flatten_map {α β : Type} (cs : Nat) (hcs : 0 < cs)
    (g : α → β) (l : List α) :
    ((chunk_list l cs).map (List.map g)).flatten = l.map g := by
  have h : ∀ ll : List (List α), (ll.map (List.map g)).flatten
      = ll.flatten.map g := by
    intro ll
    induction ll with
    | nil => rfl
    | cons x ll ih =>
      rw [List.map_cons, List.flatten_cons, List.flatten_cons,
        List.map_append, ih]
  rw [h, chunk_list_flatten cs hcs]

/-- Outcome of one unit-of-work call submitted to a thread pool: `ok val`
models a normal return (possibly None), `exc` models a raised exception
(observed by the executor as `future.result()` re-raising). -/
inductive CallResult (β : Type) where
  | ok (val : Option β)
  | exc (msg : String)

/-- A Python dictionary with string keys, as an association list. -/
abbrev Row := List (String × String)

/-- Python `d.get(k)` / `d[k]`: first-match association lookup (Python dict
keys are unique, so first match is the match). -/
def pyGet {β : Type} : List (String × β) → String → Option β
  | [], _ => none
  | p :: ps, k => if p.1 = k then some p.2 else pyGet ps k

/-- Python `d[k] = v`: replace the value in place when the key exists,
append the new key at the end otherwise (insertion order preserved). -/
def pySet {β : Type} (d : List (String × β)) (k : String) (v : β) :
    List (String × β) :=
  if (pyGet d k).isSome then d.map (fun p => if p.1 = k then (k, v) else p)
  else d ++ [(k, v)]

/-- The per-item body of `ImagesParallelProcessor.process_photos_parallel`
(src/images_report/parallel_processor.py lines 58-65): a normal non-None
result is collected, a None result is skipped, and an exception is caught,
logged with the item, and contributes nothing. -/
def photo_item_result {α β : Type} (func : α → CallResult β) (item : α) : Option β :=
  match func item with
  | CallResult.ok (some result) => some result
  | CallResult.ok none => none
  | CallResult.exc _ => none

/-- `ImagesParallelProcessor.process_photos_parallel` (lines 24-68): the
items are chunked, each chunk is submitted to a thread pool, and results are
collected. Completion order within a chunk is nondeterministic in the code;
the model fixes submission order (the claims proved here concern membership,
not order, which the spec explicitly leaves unspecified). -/
def process_photos_parallel {α β : Type} (func : α → CallResult β)
    (photo_ids : List α) (chunk_size : Nat) : List β :=
  ((chunk_list photo_ids chunk_size).map
    (fun chunk => chunk.filterMap (photo_item_result func))).flatten

/-- Statistics dictionary of `RedirectsDeleteParallelProcessor`
(src/redirects_report/delete_redirects_parallel_processor.py lines 33-39,
time fields omitted). -/
structure DeleteStats where
  total_redirects_processed : Nat := 0
  redirects_deleted : Nat := 0
  redirects_failed : Nat := 0
deriving DecidableEq

/-- The error-tagged result appended when a deletion raises (lines 94-99). -/
def redirect_error_row (item : String × String) (msg : String) : Row :=
  [("redirect_url", item.1), ("redirect_website", item.2),
    ("status", "error"), ("error", msg)]

/-- One iteration of the result-collection loop of
`process_redirects_parallel` (lines 80-99): a non-None result is appended
and counted by its "status" field; a None result is skipped; an exception is
caught, counted as failed, and converted to an error-tagged result. -/
def process_redirect_item (delete_func : String → String → CallResult Row)
    (acc : List Row × DeleteStats) (item : String × String) :
    List Row × DeleteStats :=
  match delete_func item.1 item.2 with
  | CallResult.ok none => acc
  | CallResult.ok (some result) =>
    let stats := acc.2
    let stats :=
      if pyGet result "status" = some "deleted" then
        { stats with redirects_deleted := stats.redirects_deleted + 1 }
      else if pyGet result "status" = some "failed" ∨ pyGet result "status" = some "error" then
        { stats with redirects_failed := stats.redirects_failed + 1 }
      else stats
    (acc.1 ++ [result], stats)
  | CallResult.exc msg =>
    (acc.1 ++ [redirect_error_row item msg],
      { acc.2 with redirects_failed := acc.2.redirects_failed + 1 })

/-- `RedirectsDeleteParallelProcessor.process_redirects_parallel`
(lines 41-113): chunked parallel deletion collecting results and statistics.
As for the photos processor, intra-chunk completion order is modelled as
submission order. -/
def process_redirects_parallel (delete_func : String → String → CallResult Row)
    (redirect_items : List (String × String)) (chunk_size : Nat) :
    List Row × DeleteStats :=
  (chunk_list redirect_items chunk_size).foldl
    (fun acc chunk => chunk.foldl (process_redirect_item delete_func) acc)
    ([], { total_redirects_processed := redirect_items.length })

/-- Rows contributed to the redirects result list by a single item. -/
def redirect_item_rows (delete_func : String → String → CallResult Row)
    (item : String × String) : List Row :=
  match delete_func item.1 item.2 with
  | CallResult.ok none => []
  | CallResult.ok (some result) => [result]
  | CallResult.exc msg => [redirect_error_row item msg]

/-- The result list accumulated by the redirects fold is the accumulator
followed by each item's contribution. -/
theorem redirects_foldl_rows (delete_func : String → String → CallResult Row)
    (items : List (String × String)) (acc : List Row × DeleteStats) :
    (items.foldl (process_redirect_item delete_func) acc).1
      = acc.1 ++ items.flatMap (redirect_item_rows delete_func) := by
  induction items generalizing acc with
  | nil => simp
  | cons item items ih =>
    rw [List.foldl_cons, ih, List.flatMap_cons]
    have hstep : (process_redirect_item delete_func acc item).1
        = acc.1 ++ redirect_item_rows delete_func item := by
      rw [process_redirect_item, redirect_item_rows]
      cases h : delete_func item.1 item.2 with
      | ok val => cases val <;> simp
      | exc msg => simp
    rw [hstep, List.append_assoc]

/-- The redirects processor result list over the whole input. -/
theorem process_redirects_rows (delete_func : String → String → CallResult Row)
    (items : List (String × String)) (cs : Nat) (hcs : 0 < cs) :
    (process_redirects_parallel delete_func items cs).1
      = items.flatMap (redirect_item_rows delete_func) := by
  rw [process_redirects_parallel]
  have h : ∀ (chunks : List (List (String × String))) (acc : List Row × DeleteStats),
      (chunks.foldl (fun acc chunk =>
          chunk.foldl (process_redirect_item delete_func) acc) acc).1
        = acc.1 ++ chunks.flatten.flatMap (redirect_item_rows delete_func) := by
    intro chunks
    induction chunks with
    | nil => simp
    | cons chunk chunks ih =>
      intro acc
      rw [List.foldl_cons, ih, redirects_foldl_rows, List.flatten_cons,
        List.flatMap_append, List.append_assoc]
  rw [h, chunk_list_flatten cs hcs]
  simp

/-- Membership in a flatMap. -/
theorem mem_flatMap_of_mem {α β : Type} (g : α → List β) {l : List α} {x : α}
    (hx : x ∈ l) {y : β} (hy : y ∈ g x) : y ∈ l.flatMap g :=
  List.mem_flatMap.mpr ⟨x, hx, hy⟩

/-- C4: one item's failure never aborts the batch. For the images processor,
the result list is exactly the per-item collection over all items (an
exception contributes nothing, so every other item's non-None result is
still returned); for the redirects deletion processor, an exception is
converted to an error-tagged result that appears in the output, while every
other item's non-None result still appears. -/
theorem C4_failure_isolation {α β : Type} (func : α → CallResult β)
    (photo_ids : List α) (delete_func : String → String → CallResult Row)
    (redirect_items : List (String × String)) (cs₁ cs₂ : Nat)
    (h₁ : 0 < cs₁) (h₂ : 0 < cs₂) :
    (process_photos_parallel func photo_ids cs₁
        = photo_ids.filterMap (photo_item_result func)) ∧
    (∀ item msg, func item = CallResult.exc msg → photo_item_result func item = none) ∧
    (∀ item ∈ photo_ids, ∀ r, func item = CallResult.ok (some r) →
      r ∈ process_photos_parallel func photo_ids cs₁) ∧
    (∀ item ∈ redirect_items, ∀ r, delete_func item.1 item.2 = CallResult.ok (some r) →
      r ∈ (process_redirects_parallel delete_func redirect_items cs₂).1) ∧
    (∀ item ∈ redirect_items, ∀ msg, delete_func item.1 item.2 = CallResult.exc msg →
      redirect_error_row item msg ∈
        (process_redirects_parallel delete_func redirect_items cs₂).1) := by
  have hphoto : process_photos_parallel func photo_ids cs₁
      = photo_ids.filterMap (photo_item_result func) :=
    chunk_list_flatten_filterMap cs₁ h₁ (photo_item_result func) photo_ids
  have hred := process_redirects_rows delete_func redirect_items cs₂ h₂
  refine ⟨hphoto, ?_, ?_, ?_, ?_⟩
  · intro item msg hexc
    rw [photo_item_result, hexc]
  · intro item hmem r hok
    rw [hphoto]
    exact List.mem_filterMap.mpr ⟨item, hmem, by rw [photo_item_result, hok]⟩
  · intro item hmem r hok
    rw [hred]
    exact mem_flatMap_of_mem _ hmem (by rw [redirect_item_rows, hok]; simp)
  · intro item hmem msg hexc
    rw [hred]
    exact mem_flatMap_of_mem _ hmem (by rw [redirect_item_rows, hexc]; simp)

/-- C4 witness: a batch of three photo ids where the middle call raises, and
a two-item redirect batch where the first deletion raises: the good results
are still returned and the raising redirect appears error-tagged. -/
theorem C4_failure_isolation_witness :
    ((0 : Nat) < 100 ∧ (0 : Nat) < 100) ∧
    (process_photos_parallel
        (fun n : Nat => if n = 1 then CallResult.exc "boom" else CallResult.ok (some n))
        [0, 1, 2] 100
      = [0, 2] ∧
    redirect_error_row ("/old", "site") "boom" ∈
      (process_redirects_parallel
        (fun u _ => if u = "/old" then CallResult.exc "boom"
          else CallResult.ok (some [("status", "deleted")]))
        [("/old", "site"), ("/new", "site")] 100).1) := by
  have h := C4_failure_isolation
    (fun n : Nat => if n = 1 then CallResult.exc "boom" else CallResult.ok (some n))
    [0, 1, 2]
    (fun u _ => if u = "/old" then CallResult.exc "boom"
      else CallResult.ok (some [("status", "deleted")]))
    [("/old", "site"), ("/new", "site")] 100 100 (by decide) (by decide)
  refine ⟨⟨by decide, by decide⟩, ?_, ?_⟩
  · rw [h.1]
    simp [photo_item_result]
  · exact h.2.2.2.2 ("/old", "site") (by simp) "boom" (by simp)

/-- Outcome of the HTTP GET issued for one URL by
`AsyncStatusChecker.check_single_status`
(src/redirects_report/status_checker.py lines 36-59): a status code, an
`asyncio.TimeoutError`, or any other exception. -/
inductive NetOutcome where
  | status (code : Nat)
  | timedOut
  | failed (msg : String)

/-- The value stored for a URL in the status dictionary: an integer status
code or one of the sentinels "timeout" / "error". -/
inductive StatusVal where
  | code (n : Nat)
  | timeout
  | error
deriving DecidableEq

/-- URL resolution in `check_single_status` (line 46): prefix the website
domain unless the URL already has a scheme. -/
def full_url (website_domain url : String) : String :=
  if url.startsWith "http" then url else website_domain ++ url

/-- `AsyncStatusChecker.check_single_status` (lines 36-59): with a session,
the GET outcome maps to (url, status); a timeout maps to the sentinel
"timeout", any other exception to "error"; without a session the result is
(url, "error"). No branch raises. -/
def check_single_status (net : String → NetOutcome) (has_session : Bool)
    (website_domain url : String) : String × StatusVal :=
  if has_session then
    match net (full_url website_domain url) with
    | NetOutcome.status code => (url, StatusVal.code code)
    | NetOutcome.timedOut => (url, StatusVal.timeout)
    | NetOutcome.failed _ => (url, StatusVal.error)
  else (url, StatusVal.error)

/-- `AsyncStatusChecker.check_urls_batch` (lines 61-94): `asyncio.gather`
returns results in task submission order; since `check_single_status` never
raises, the isinstance(result, Exception) branch is unreachable and the
batch result is the ordered list of per-URL results. -/
def check_urls_batch (net : String → NetOutcome) (has_session : Bool)
    (website_domain : String) (urls : List String) : List (String × StatusVal) :=
  urls.map (check_single_status net has_session website_domain)

/-- Python list(dict.fromkeys(urls)) (line 111): deduplicate preserving the
order of first occurrences. -/
def dedup_preserving_order : List String → List String
  | [] => []
  | u :: us => u :: dedup_preserving_order (us.filter (fun v => decide (v ≠ u)))
termination_by l => l.length
decreasing_by
  have h := List.length_filter_le (fun v => decide (v ≠ u)) us
  simp only [List.length_cons]
  omega

/-- `AsyncStatusChecker.check_all_urls` (lines 97-134): deduplicate the URLs
preserving first-seen order, split into batches, check each batch, and
collect all (url, status) pairs; `dict(all_results)` is modelled by keeping
the pair list and reading it with `dict_get`. -/
def check_all_urls (net : String → NetOutcome) (has_session : Bool)
    (website_domain : String) (urls : List String) (batch_size : Nat) :
    List (String × StatusVal) :=
  ((chunk_list (dedup_preserving_order urls) batch_size).map
    (check_urls_batch net has_session website_domain)).flatten

/-- Python `dict(pairs).get(k)`: building a dict from a pair list keeps the
last value for a duplicated key, so lookup scans the reversed list. -/
def dict_get {β : Type} (pairs : List (String × β)) (k : String) : Option β :=
  pyGet pairs.reverse k

/-- `str(status_dict.get(canonical_url, ""))` (lines 152-155): the empty
string when the URL is absent, the decimal form of an integer code, or the
sentinel itself. -/
def str_of_status : Option StatusVal → String
  | none => ""
  | some (StatusVal.code n) => toString n
  | some StatusVal.timeout => "timeout"
  | some StatusVal.error => "error"

/-- `update_dataframe_with_statuses` (lines 136-159): each row is copied and
its "check_404_or_200" field is set to the string form of the status looked
up by the row's canonical_url (`item.get("canonical_url", "")`). -/
def update_dataframe_with_statuses (data : List Row)
    (status_dict : List (String × StatusVal)) : List Row :=
  data.map fun item =>
    pySet item "check_404_or_200"
      (str_of_status (dict_get status_dict ((pyGet item "canonical_url").getD "")))

/-- Deduplication preserves membership. -/
theorem mem_dedup_preserving_order (v : String) (l : List String) :
    v ∈ dedup_preserving_order l ↔ v ∈ l := by
  match l with
  | [] => simp [dedup_preserving_order]
  | u :: us =>
    rw [dedup_preserving_order]
    by_cases hv : v = u
    · simp [hv]
    · have ih := mem_dedup_preserving_order v (us.filter (fun w => decide (w ≠ u)))
      simp only [List.mem_cons, ih, List.mem_filter, decide_eq_true_eq]
      constructor
      · rintro (h | ⟨h, _⟩)
        · exact Or.inl h
        · exact Or.inr h
      · rintro (h | h)
        · exact Or.inl h
        · exact Or.inr ⟨h, hv⟩
termination_by l.length
decreasing_by
  have h := List.length_filter_le (fun w => decide (w ≠ u)) us
  simp only [List.length_cons]
  omega

/-- Deduplication produces a list without duplicates. -/
theorem nodup_dedup_preserving_order (l : List String) :
    (dedup_preserving_order l).Nodup := by
  match l with
  | [] =>
    rw [dedup_preserving_order]
    exact List.nodup_nil
  | u :: us =>
    rw [dedup_preserving_order]
    refine List.Nodup.cons ?_ (nodup_dedup_preserving_order _)
    intro hmem
    have h := (mem_dedup_preserving_order u _).mp hmem
    simp [List.mem_filter] at h
termination_by l.length
decreasing_by
  have h := List.length_filter_le (fun w => decide (w ≠ u)) us
  simp only [List.length_cons]
  omega

/-- Looking a key up in a list of pairs keyed by itself. -/
theorem pyGet_map_self {β : Type} (g : String → β) (l : List String) (u : String)
    (hu : u ∈ l) : pyGet (l.map (fun v => (v, g v))) u = some (g u) := by
  induction l with
  | nil => cases hu
  | cons v l ih =>
    rw [List.map_cons, pyGet]
    by_cases hv : v = u
    · rw [if_pos hv, hv]
    · rw [if_neg hv]
      refine ih ?_
      rcases List.mem_cons.mp hu with h | h
      · exact absurd h.symm hv
      · exact h

/-- Every URL in the input list is mapped by `check_all_urls` to the status
of its single check. -/
theorem dict_get_check_all_urls (net : String → NetOutcome) (has_session : Bool)
    (dom : String) (urls : List String) (bs : Nat) (hbs : 0 < bs) (u : String)
    (hu : u ∈ urls) :
    dict_get (check_all_urls net has_session dom urls bs) u
      = some (check_single_status net has_session dom u).2 := by
  have hfst : ∀ w, check_single_status net has_session dom w
      = (w, (check_single_status net has_session dom w).2) := by
    intro w
    rw [check_single_status]
    split
    · cases net (full_url dom w) <;> rfl
    · rfl
  have hbatch : check_urls_batch net has_session dom
      = List.map (check_single_status net has_session dom) := rfl
  have hflat : check_all_urls net has_session dom urls bs
      = (dedup_preserving_order urls).map (check_single_status net has_session dom) := by
    rw [check_all_urls, hbatch]
    exact chunk_list_flatten_map bs hbs _ _
  rw [dict_get, hflat]
  have hmapped : (dedup_preserving_order urls).map (check_single_status net has_session dom)
      = (dedup_preserving_order urls).map
          (fun w => (w, (check_single_status net has_session dom w).2)) :=
    List.map_congr_left (fun w _ => hfst w)
  rw [hmapped, ← List.map_reverse]
  exact pyGet_map_self _ _ u
    (by rw [List.mem_reverse]; exact (mem_dedup_preserving_order u urls).mpr hu)

/-- Lookup through an append when the left part has the key. -/
theorem pyGet_append_of_isSome {β : Type} (a b : List (String × β)) (k : String)
    (w : β) (h : pyGet a k = some w) : pyGet (a ++ b) k = some w := by
  induction a with
  | nil => rw [pyGet] at h; cases h
  | cons p ps ih =>
    rw [pyGet] at h
    rw [List.cons_append, pyGet]
    by_cases hp : p.1 = k
    · rw [if_pos hp] at h ⊢; exact h
    · rw [if_neg hp] at h ⊢; exact ih h

/-- Lookup through an append when the left part lacks the key. -/
theorem pyGet_append_of_none {β : Type} (a b : List (String × β)) (k : String)
    (h : pyGet a k = none) : pyGet (a ++ b) k = pyGet b k := by
  induction a with
  | nil => rfl
  | cons p ps ih =>
    rw [pyGet] at h
    rw [List.cons_append, pyGet]
    by_cases hp : p.1 = k
    · rw [if_pos hp] at h; cases h
    · rw [if_neg hp] at h ⊢; exact ih h

/-- Replacing the value at key k in place: the lookup at k afterwards. -/
theorem pyGet_map_update {β : Type} (k : String) (v : β) (d : List (String × β)) :
    pyGet (d.map (fun p => if p.1 = k then (k, v) else p)) k
      = if (pyGet d k).isSome then some v else none := by
  induction d with
  | nil => simp [pyGet]
  | cons p ps ih =>
    by_cases hp : p.1 = k
    · simp [pyGet, hp]
    · simp [pyGet, hp, ih]

/-- Replacing the value at key k in place does not change other keys. -/
theorem pyGet_map_update_other {β : Type} (k k' : String) (hne : k' ≠ k) (v : β)
    (d : List (String × β)) :
    pyGet (d.map (fun p => if p.1 = k then (k, v) else p)) k' = pyGet d k' := by
  induction d with
  | nil => rfl
  | cons p ps ih =>
    by_cases hp : p.1 = k
    · have hp' : ¬ p.1 = k' := by rw [hp]; exact fun h => hne h.symm
      simp [pyGet, hp, ih, hp', Ne.symm hne]
    · simp [pyGet, hp, ih]

/-- Assignment then lookup at the same key gives the assigned value. -/
theorem pyGet_pySet_same {β : Type} (d : List (String × β)) (k : String) (v : β) :
    pyGet (pySet d k v) k = some v := by
  rw [pySet]
  by_cases hs : (pyGet d k).isSome
  · rw [if_pos hs, pyGet_map_update, if_pos hs]
  · rw [if_neg hs]
    have hnone : pyGet d k = none := by
      cases h : pyGet d k
      · rfl
      · rw [h] at hs; simp at hs
    rw [pyGet_append_of_none _ _ _ hnone]
    simp [pyGet]

/-- Assignment does not change the lookup at any other key. -/
theorem pyGet_pySet_other {β : Type} (d : List (String × β)) (k k' : String)
    (hne : k' ≠ k) (v : β) :
    pyGet (pySet d k v) k' = pyGet d k' := by
  rw [pySet]
  by_cases hs : (pyGet d k).isSome
  · rw [if_pos hs, pyGet_map_update_other k k' hne]
  · rw [if_neg hs]
    cases h : pyGet d k' with
    | some w => rw [pyGet_append_of_isSome _ _ _ _ h]
    | none =>
      rw [pyGet_append_of_none _ _ _ h]
      simp [pyGet, Ne.symm hne]

/-- `check_all_urls` checks exactly the deduplicated URL list, in order. -/
theorem check_all_urls_eq_map (net : String → NetOutcome) (has_session : Bool)
    (dom : String) (urls : List String) (bs : Nat) (hbs : 0 < bs) :
    check_all_urls net has_session dom urls bs
      = (dedup_preserving_order urls).map (check_single_status net has_session dom) := by
  rw [check_all_urls]
  exact chunk_list_flatten_map bs hbs _ _

/-- C5: `check_all_urls` deduplicates the URLs preserving first-seen order
before any network work, so each distinct URL is checked exactly once (the
issued checks are exactly one per element of the duplicate-free,
membership-preserving deduplicated list), and the resulting map, merged back
by `update_dataframe_with_statuses`, broadcasts each URL's single status to
every original row whose canonical_url references it. -/
theorem C5_dedup_once_and_broadcast (net : String → NetOutcome) (has_session : Bool)
    (dom : String) (urls : List String) (bs : Nat) (hbs : 0 < bs) (data : List Row) :
    check_all_urls net has_session dom urls bs
        = (dedup_preserving_order urls).map (check_single_status net has_session dom) ∧
    (dedup_preserving_order urls).Nodup ∧
    (∀ u, u ∈ dedup_preserving_order urls ↔ u ∈ urls) ∧
    (∀ u ∈ urls, dict_get (check_all_urls net has_session dom urls bs) u
        = some (check_single_status net has_session dom u).2) ∧
    (∀ (i : Nat) (item : Row), data[i]? = some item →
      ((pyGet item "canonical_url").getD "") ∈ urls →
      ∃ out, (update_dataframe_with_statuses data
          (check_all_urls net has_session dom urls bs))[i]? = some out ∧
        pyGet out "check_404_or_200" = some (str_of_status (some
          (check_single_status net has_session dom
            ((pyGet item "canonical_url").getD "")).2))) := by
  refine ⟨check_all_urls_eq_map net has_session dom urls bs hbs,
    nodup_dedup_preserving_order urls,
    fun u => mem_dedup_preserving_order u urls,
    fun u hu => dict_get_check_all_urls net has_session dom urls bs hbs u hu, ?_⟩
  intro i item hi hu
  refine ⟨pySet item "check_404_or_200"
    (str_of_status (dict_get (check_all_urls net has_session dom urls bs)
      ((pyGet item "canonical_url").getD ""))), ?_, ?_⟩
  · rw [update_dataframe_with_statuses, List.getElem?_map, hi, Option.map_some']
  · rw [pyGet_pySet_same,
      dict_get_check_all_urls net has_session dom urls bs hbs _ hu]

/-- C5 witness: the duplicate list ["/a", "/a", "/b"] yields one check per
distinct URL and the "/a" status is broadcast back to a row referencing
"/a". -/
theorem C5_dedup_once_and_broadcast_witness :
    (0 : Nat) < 100 ∧
    (check_all_urls (fun _ => NetOutcome.status 200) true "https://ex"
          ["/a", "/a", "/b"] 100
        = (dedup_preserving_order ["/a", "/a", "/b"]).map
            (check_single_status (fun _ => NetOutcome.status 200) true "https://ex") ∧
      (dedup_preserving_order ["/a", "/a", "/b"]).Nodup ∧
      (∀ u, u ∈ dedup_preserving_order ["/a", "/a", "/b"] ↔ u ∈ ["/a", "/a", "/b"]) ∧
      (∀ u ∈ ["/a", "/a", "/b"],
        dict_get (check_all_urls (fun _ => NetOutcome.status 200) true "https://ex"
            ["/a", "/a", "/b"] 100) u
          = some (check_single_status (fun _ => NetOutcome.status 200) true "https://ex" u).2) ∧
      (∀ (i : Nat) (item : Row), ([[("canonical_url", "/a")]] : List Row)[i]? = some item →
        ((pyGet item "canonical_url").getD "") ∈ ["/a", "/a", "/b"] →
        ∃ out, (update_dataframe_with_statuses [[("canonical_url", "/a")]]
            (check_all_urls (fun _ => NetOutcome.status 200) true "https://ex"
              ["/a", "/a", "/b"] 100))[i]? = some out ∧
          pyGet out "check_404_or_200" = some (str_of_status (some
            (check_single_status (fun _ => NetOutcome.status 200) true "https://ex"
              ((pyGet item "canonical_url").getD "")).2)))) :=
  ⟨by decide,
    C5_dedup_once_and_broadcast (fun _ => NetOutcome.status 200) true "https://ex"
      ["/a", "/a", "/b"] 100 (by decide) [[("canonical_url", "/a")]]⟩

/-- C6: a URL whose check times out is recorded in the returned map with the
sentinel "timeout", and a URL whose check raises any other exception is
recorded with the sentinel "error"; `check_all_urls` is a total function of
its oracles, so no exception escapes to the caller. -/
theorem C6_sentinels_recorded (net : String → NetOutcome) (dom : String)
    (urls : List String) (bs : Nat) (hbs : 0 < bs) (u : String) (hu : u ∈ urls) :
    (net (full_url dom u) = NetOutcome.timedOut →
      dict_get (check_all_urls net true dom urls bs) u = some StatusVal.timeout) ∧
    (∀ msg, net (full_url dom u) = NetOutcome.failed msg →
      dict_get (check_all_urls net true dom urls bs) u = some StatusVal.error) := by
  have h := dict_get_check_all_urls net true dom urls bs hbs u hu
  constructor
  · intro ht
    rw [h, check_single_status, if_pos rfl, ht]
  · intro msg hf
    rw [h, check_single_status, if_pos rfl, hf]

/-- C6 witness: over the two URLs ["/t", "/e"], a network oracle that times
out on the first and raises on the second records the sentinels "timeout"
and "error" in the returned map. -/
theorem C6_sentinels_recorded_witness :
    ((0 : Nat) < 100 ∧ "/t" ∈ ["/t", "/e"]) ∧
    ((fun s => if s = "D/t" then NetOutcome.timedOut else NetOutcome.failed "x")
        (full_url "D" "/t") = NetOutcome.timedOut →
      dict_get (check_all_urls
          (fun s => if s = "D/t" then NetOutcome.timedOut else NetOutcome.failed "x")
          true "D" ["/t", "/e"] 100) "/t" = some StatusVal.timeout) ∧
    (∀ msg, (fun s => if s = "D/t" then NetOutcome.timedOut else NetOutcome.failed "x")
        (full_url "D" "/t") = NetOutcome.failed msg →
      dict_get (check_all_urls
          (fun s => if s = "D/t" then NetOutcome.timedOut else NetOutcome.failed "x")
          true "D" ["/t", "/e"] 100) "/t" = some StatusVal.error) :=
  ⟨⟨by decide, by simp⟩,
    (C6_sentinels_recorded
      (fun s => if s = "D/t" then NetOutcome.timedOut else NetOutcome.failed "x")
      "D" ["/t", "/e"] 100 (by decide) "/t" (by simp)).1,
    (C6_sentinels_recorded
      (fun s => if s = "D/t" then NetOutcome.timedOut else NetOutcome.failed "x")
      "D" ["/t", "/e"] 100 (by decide) "/t" (by simp)).2⟩

/-- C10: `update_dataframe_with_statuses` returns a list of the same length
and order as the input; each output row agrees with its input row on every
key other than "check_404_or_200", and that key holds the string form of the
status looked up by the row's canonical_url, the empty string when the URL is
absent from the map. Rows are rebuilt functionally, never mutated. -/
theorem C10_update_dataframe_frame (data : List Row) (sd : List (String × StatusVal)) :
    (update_dataframe_with_statuses data sd).length = data.length ∧
    (∀ (i : Nat) (item : Row), data[i]? = some item →
      ∃ out, (update_dataframe_with_statuses data sd)[i]? = some out ∧
        (∀ k, k ≠ "check_404_or_200" → pyGet out k = pyGet item k) ∧
        pyGet out "check_404_or_200"
          = some (str_of_status (dict_get sd ((pyGet item "canonical_url").getD "")))) := by
  constructor
  · rw [update_dataframe_with_statuses, List.length_map]
  · intro i item hi
    refine ⟨pySet item "check_404_or_200"
      (str_of_status (dict_get sd ((pyGet item "canonical_url").getD ""))), ?_, ?_, ?_⟩
    · rw [update_dataframe_with_statuses, List.getElem?_map, hi, Option.map_some']
    · intro k hk
      exact pyGet_pySet_other item "check_404_or_200" k hk _
    · exact pyGet_pySet_same item "check_404_or_200" _

/-- C10 witness: a single row with canonical_url "/a" and a map sending "/a"
to status code 301. -/
theorem C10_update_dataframe_frame_witness :
    ∃ out, (update_dataframe_with_statuses [[("canonical_url", "/a"), ("website", "w")]]
        [("/a", StatusVal.code 301)])[0]? = some out ∧
      (∀ k, k ≠ "check_404_or_200" →
        pyGet out k = pyGet [("canonical_url", "/a"), ("website", "w")] k) ∧
      pyGet out "check_404_or_200"
        = some (str_of_status (dict_get [("/a", StatusVal.code 301)]
            ((pyGet [("canonical_url", "/a"), ("website", "w")] "canonical_url").getD ""))) :=
  (C10_update_dataframe_frame [[("canonical_url", "/a"), ("website", "w")]]
    [("/a", StatusVal.code 301)]).2 0 _ rfl

/-- A file-system fragment: path to file content, one string per written CSV
line. `none` means the file does not exist, `some []` a zero-byte file. -/
abbrev FileSys := String → Option (List String)

/-- Writing (or creating) a file with the given content. -/
def fs_write (fs : FileSys) (path : String) (content : List String) : FileSys :=
  fun q => if q = path then some content else fs q

/-- `os.remove`. -/
def fs_remove (fs : FileSys) (path : String) : FileSys :=
  fun q => if q = path then none else fs q

/-- Python substring test `pat in s`. -/
def contains_sub (s pat : String) : Bool :=
  (List.range (s.length + 1)).any (fun i => decide ((s.drop i).take pat.length = pat))

/-- `csv.DictWriter` fieldnames of the preserved-photos file
(src/images_report/published_photo_analysis.py lines 439-441). -/
def preserved_fieldnames : List String := ["ans_id", "ans_location", "source_id", "website"]

/-- The header line written by `writer.writeheader()`. -/
def preserved_header : String := String.intercalate "," preserved_fieldnames

/-- One `writer.writerow(row)` line of the preserved-photos file. -/
def preserved_row_line (r : Row) : String :=
  String.intercalate "," (preserved_fieldnames.map (fun f => (pyGet r f).getD ""))

/-- One iteration of the file-writing loop of
`PublishedPhotoAnalysis.write_csv_files` (lines 429-464): the file is opened
in append mode (created empty if absent); the preserved file gets a header
when the file was empty plus one line per preserved row, the delete file one
line per image id, and nothing is written when the corresponding list is
empty; finally a file whose size is 0 is removed. -/
def write_report_file (fs : FileSys) (file_name : String) (images_list : List String)
    (images_preserved : List Row) : FileSys :=
  let existing := (fs file_name).getD []
  let content :=
    if contains_sub file_name "preserved" then
      if images_preserved.length ≠ 0 then
        if existing.length = 0 then
          existing ++ (preserved_header :: images_preserved.map preserved_row_line)
        else existing ++ images_preserved.map preserved_row_line
      else existing
    else
      if images_list.length ≠ 0 then existing ++ images_list
      else existing
  let fs1 := fs_write fs file_name content
  if ((fs1 file_name).getD []).length = 0 then fs_remove fs1 file_name else fs1

/-- `PublishedPhotoAnalysis.write_csv_files` (lines 414-464), with the
already-suffixed file names passed in (the name_suffix construction is
string plumbing that the claims do not touch). -/
def write_csv_files (fs : FileSys) (filenames : List String) (images_list : List String)
    (images_preserved : List Row) : FileSys :=
  filenames.foldl
    (fun acc name => write_report_file acc name images_list images_preserved) fs

/-- pandas `df.to_csv(filepath, index=False)`: a header line from the row
keys followed by one line per row. -/
def dataframe_lines (data : List Row) : List String :=
  String.intercalate "," ((data.headD []).map Prod.fst) ::
    data.map (fun r => String.intercalate "," (r.map Prod.snd))

/-- `RedirectsSearchParallelProcessor.export_to_csv`
(src/redirects_report/identify_redirects_parallel_processor.py lines
138-168): with no data, no file is created and "" is returned; otherwise the
DataFrame is written to the file path, which is returned. -/
def export_to_csv (fs : FileSys) (data : List Row) (filepath : String) :
    FileSys × String :=
  if data.length = 0 then (fs, "")
  else (fs_write fs filepath (dataframe_lines data), filepath)

/-- Writing a report file only touches its own path. -/
theorem write_report_file_other (fs : FileSys) (name : String) (l : List String)
    (p : List Row) (q : String) (hq : q ≠ name) :
    write_report_file fs name l p q = fs q := by
  rw [write_report_file]
  rw [apply_ite (fun g : FileSys => g q)]
  simp [fs_remove, fs_write, hq]

/-- With zero rows of both kinds, the written report file never remains
empty: it is either removed (it was empty) or left with its previous
non-empty content. -/
theorem write_report_file_zero_rows (fs : FileSys) (name : String) :
    write_report_file fs name [] [] name ≠ some [] := by
  rw [write_report_file]
  rw [apply_ite (fun g : FileSys => g name)]
  cases hE : (fs name).getD [] with
  | nil => simp [hE, fs_remove, fs_write]
  | cons a t => simp [hE, fs_remove, fs_write]

/-- Folding the zero-row write over a list of names leaves untouched any
path outside the list. -/
theorem foldl_write_untouched (l : List String) (p : List Row) :
    ∀ (names : List String) (fs : FileSys) (q : String), q ∉ names →
      names.foldl (fun acc name => write_report_file acc name l p) fs q = fs q := by
  intro names
  induction names with
  | nil => intro fs q _; rfl
  | cons f rest ih =>
    intro fs q hq
    rw [List.foldl_cons, ih _ q (fun h => hq (List.mem_cons_of_mem f h)),
      write_report_file_other]
    exact fun h => hq (by rw [h]; exact List.mem_cons_self f rest)

/-- After the zero-row run of the writing loop, no name in the list maps to
an empty file. -/
theorem foldl_write_no_empty :
    ∀ (names : List String) (fs : FileSys) (name : String), name ∈ names →
      names.foldl (fun acc n => write_report_file acc n [] []) fs name ≠ some [] := by
  intro names
  induction names with
  | nil => intro fs name h; cases h
  | cons f rest ih =>
    intro fs name hmem
    rw [List.foldl_cons]
    by_cases hr : name ∈ rest
    · exact ih _ name hr
    · have hf : name = f := by
        rcases List.mem_cons.mp hmem with h | h
        · exact h
        · exact absurd h hr
      rw [foldl_write_untouched [] [] rest _ name hr, hf]
      exact write_report_file_zero_rows fs f

/-- C9: when the pipeline produced zero rows, no zero-byte report file
remains after export. The redirects CSV exporter creates no file at all for
empty data (the file system is returned unchanged and "" is reported); the
images CSV writer, run with empty delete and preserved lists, leaves no name
of the report-file list mapped to an empty file (a freshly created empty
file is removed, a preexisting file keeps its non-empty content). -/
theorem C9_no_empty_report_file (fs : FileSys) (filenames : List String)
    (data : List Row) (filepath : String) (name : String)
    (hdata : data = []) (hname : name ∈ filenames) :
    export_to_csv fs data filepath = (fs, "") ∧
    write_csv_files fs filenames [] [] name ≠ some [] := by
  constructor
  · rw [hdata, export_to_csv]
    simp
  · rw [write_csv_files]
    exact foldl_write_no_empty filenames fs name hname

/-- C9 witness: an empty file system, the two usual report file names and
zero rows: the exporter reports "" and neither report file remains empty. -/
theorem C9_no_empty_report_file_witness :
    (([] : List Row) = [] ∧
      "org_preserved_photo_ids_all_dates.csv"
        ∈ ["org_preserved_photo_ids_all_dates.csv", "org_photo_ids_to_delete_all_dates.csv"]) ∧
    (export_to_csv (fun _ => none) [] "out.csv" = ((fun _ => none : FileSys), "") ∧
      write_csv_files (fun _ => none)
        ["org_preserved_photo_ids_all_dates.csv", "org_photo_ids_to_delete_all_dates.csv"]
        [] [] "org_preserved_photo_ids_all_dates.csv" ≠ some []) :=
  ⟨⟨rfl, by simp⟩,
    C9_no_empty_report_file (fun _ => none)
      ["org_preserved_photo_ids_all_dates.csv", "org_photo_ids_to_delete_all_dates.csv"]
      [] "out.csv" "org_preserved_photo_ids_all_dates.csv" rfl (by simp)⟩

end ContentReport
